import Mathlib

/- Verification of the bradley generator (package lib, src/lib/lib.go): a tool
that splits one Go source file into type/function/method bucket files, vendors
third-party dependencies into a private subtree, and rewrites ("shades")
third-party import paths to live under the new module's namespace.

The Go code is shallowly embedded below. Pure string/path helpers from the Go
standard library (strings.Split, strings.HasPrefix, strings.HasSuffix,
strings.Fields, path/filepath Clean, Join, Base, ToSlash) are modelled
character-exactly for the Unix configuration (filepath.Separator = '/',
filepath.ToSlash = identity), because lib.go's behaviour on import paths
depends on them. File-system and subprocess effects are modelled by explicit
state (lists of entries, event records) and oracle parameters, with each
definition's doc comment naming the lib.go lines it embeds. -/

namespace Bradley

/-- Worker for Go `strings.Split(s, sep)` with a one-character separator:
walks the characters, `acc` holds the current chunk reversed. -/
def splitCharAux (c : Char) : List Char → List Char → List (List Char)
  | [], acc => [acc.reverse]
  | x :: xs, acc =>
    if x = c then acc.reverse :: splitCharAux c xs []
    else splitCharAux c xs (x :: acc)

/-- Go `strings.Split(s, String.mk [c])` for a one-character separator. -/
def splitStr (c : Char) (s : String) : List String :=
  (splitCharAux c s.data []).map (fun l => String.mk l)

/-- Go `strings.Split(path, "/")`, as used by `isThirdParty` (lib.go:215). -/
def splitOnSlash (s : String) : List String := splitStr '/' s

/-- Go `strings.HasPrefix(s, pre)` (lib.go:46): byte-wise prefix test. -/
def strHasPrefixGo (s pre : String) : Bool := pre.data.isPrefixOf s.data

/-- Go `strings.HasSuffix(s, suf)` (lib.go:57): byte-wise suffix test. -/
def strHasSuffixGo (s suf : String) : Bool := suf.data.isSuffixOf s.data

/-- Go `strings.Contains(s, ".")` (lib.go:216); the needle is a single
character, so it holds exactly when some character of `s` is `'.'`. -/
def containsDot (s : String) : Bool := s.data.contains '.'

/-- lib.go:211-217 `isThirdParty`: an import path is third-party when it is
non-empty and its first `/`-separated segment contains a dot. -/
def isThirdParty (path : String) : Bool :=
  if path = "" then false
  else containsDot ((splitOnSlash path).headD "")

/-- Segment loop of Go `path.Clean` (what `filepath.Clean` is on Unix):
drops empty and `.` segments, and makes `..` pop the previous real segment,
accumulate (when not rooted) or vanish (when rooted at `/`). `stack` holds the
output segments reversed. -/
def cleanLoop (rooted : Bool) : List String → List String → List String
  | stack, [] => stack.reverse
  | stack, seg :: rest =>
    if seg = "" ∨ seg = "." then cleanLoop rooted stack rest
    else if seg = ".." then
      match stack with
      | top :: stack2 =>
        if top = ".." then cleanLoop rooted (".." :: top :: stack2) rest
        else cleanLoop rooted stack2 rest
      | [] =>
        if rooted then cleanLoop rooted [] rest
        else cleanLoop rooted [".."] rest
    else cleanLoop rooted (seg :: stack) rest

/-- Joins cleaned segments back with `/`. -/
def joinSegs : List String → String
  | [] => ""
  | [s] => s
  | s :: t :: rest => s ++ "/" ++ joinSegs (t :: rest)

/-- Go `path.Clean` = Unix `filepath.Clean`, called by `filepath.Join`
(lib.go:47): lexical simplification of a slash-separated path. -/
def pathClean (p : String) : String :=
  if p = "" then "."
  else
    let rooted := decide (p.data.head? = some '/')
    let out := joinSegs (cleanLoop rooted [] (splitOnSlash p))
    if rooted then (if out = "" then "/" else "/" ++ out)
    else (if out = "" then "." else out)

/-- Unix `filepath.Join` on two elements (lib.go:47, 106, 131, 132): empty
elements are skipped and the slash-joined rest is cleaned; all-empty gives "". -/
def filepathJoin (a b : String) : String :=
  if a = "" ∧ b = "" then ""
  else if a = "" then pathClean b
  else if b = "" then pathClean a
  else pathClean (a ++ "/" ++ b)

/-- Unix `filepath.ToSlash` (lib.go:47): the separator already is `/`, so it
is the identity. -/
def filepathToSlash (s : String) : String := s

/-- Unix `filepath.Base` (lib.go:180): `.` for the empty path, else the last
element after trailing slashes are removed, `/` if nothing remains. -/
def filepathBase (p : String) : String :=
  if p = "" then "."
  else
    let r := p.data.reverse.dropWhile (fun c => c = '/')
    let base := (r.takeWhile (fun c => c ≠ '/')).reverse
    if base = [] then "/" else String.mk base

/-- Go `strings.Fields(line)` (lib.go:130) for space-separated manifests:
the maximal runs of non-space characters. -/
def goFields (s : String) : List String :=
  (splitStr ' ' s).filter (fun t => t ≠ "")

/-- lib.go:19-25 `Generator`. The `token.FileSet` field carries parser
positions only and plays no part in any computed value, so it is omitted. -/
structure Generator where
  ProjectName : String
  OutputDir : String
  ThirdPartyDir : String
  ImportPrefix : String
deriving Repr, DecidableEq

/-- lib.go:27-37 `NewGenerator`: derives every name from the input file's
package clause identifier (`node.Name.Name`), which the external parser
supplies; parsing itself is outside the embedding. -/
def NewGenerator (pkgName : String) : Generator :=
  let projName := pkgName ++ "_split"
  { ProjectName := projName
    OutputDir := projName
    ThirdPartyDir := filepathJoin projName "third_party"
    ImportPrefix := projName ++ "/third_party" }

/-- The rewrite condition of lib.go:46: third-party and not already under the
generator's import prefix. -/
def needsShade (g : Generator) (p : String) : Bool :=
  isThirdParty p && !(strHasPrefixGo p g.ImportPrefix)

/-- The rewrite of one import path, lib.go:46-49. Import paths are kept
unquoted: Go trims the string literal's quotes before the test (lib.go:45) and
re-adds exactly one pair when writing back (lib.go:48), so the quotes cancel. -/
def shadePath (g : Generator) (p : String) : String :=
  if needsShade g p then filepathToSlash (filepathJoin g.ImportPrefix p) else p

/-- A parsed Go file as the Shader sees it: its import paths, and `rest` for
every other byte of the file, which lib.go:42-53 never touches. -/
structure GoFile where
  imports : List String
  rest : String
deriving Repr, DecidableEq

/-- lib.go:42-53 `rewriteImportsInFile`: rewrites each import path in place
and reports whether any import satisfied the rewrite condition. -/
def rewriteImportsInFile (g : Generator) (f : GoFile) : GoFile × Bool :=
  (⟨f.imports.map (shadePath g), f.rest⟩, f.imports.any (needsShade g))

deriving instance DecidableEq for Except

/-- One entry the `filepath.Walk` of lib.go:56 visits: its path, whether it is
a directory, and the result of parsing it as Go (consulted only when the entry
is a non-directory `.go` file). -/
structure FsEntry where
  path : String
  isDir : Bool
  parsed : Except String GoFile
deriving Repr, DecidableEq

/-- The walk callback of lib.go:56-74 on one entry: directories and files
without the `.go` suffix are returned untouched before any parse is attempted
(lib.go:57-59); a parse failure is returned as the walk's error (lib.go:60-63);
a file whose rewrite reported changes is written back rewritten (lib.go:65-72),
any other file is left as it was. -/
def shadeEntry (g : Generator) (e : FsEntry) : Except String FsEntry :=
  if e.isDir || !(strHasSuffixGo e.path ".go") then Except.ok e
  else
    match e.parsed with
    | Except.error err => Except.error err
    | Except.ok f =>
      if (rewriteImportsInFile g f).2 then
        Except.ok { e with parsed := Except.ok (rewriteImportsInFile g f).1 }
      else Except.ok e

/-- lib.go:55-75 `processDirectoryImports`: the walk over every entry under the
root, in visit order; the first error aborts the walk. -/
def processDirectoryImports (g : Generator) : List FsEntry → Except String (List FsEntry)
  | [] => Except.ok []
  | e :: rest =>
    match shadeEntry g e with
    | Except.error err => Except.error err
    | Except.ok e2 =>
      match processDirectoryImports g rest with
      | Except.error err => Except.error err
      | Except.ok r2 => Except.ok (e2 :: r2)

/-- The `token.Token` values a parsed file's `ast.GenDecl` can carry. -/
inductive GoTok where
  | IMPORT
  | CONST
  | TYPE
  | VAR
deriving Repr, DecidableEq

/-- `ast.ImportSpec`: optional local name and the (unquoted) path. -/
structure ImportSpec where
  name : Option String
  path : String
deriving Repr, DecidableEq

/-- An `ast.Spec` inside a GenDecl: an import spec, or any other spec
(value/type specs, distinguished by an identifying payload). -/
inductive Spec where
  | imp (is : ImportSpec)
  | other (payload : Nat)
deriving Repr, DecidableEq

/-- A top-level declaration of an error-free parsed Go file: `ast.GenDecl`
(with its token and specs) or `ast.FuncDecl` (with its optional receiver).
`payload` stands for the declaration's body, which lib.go moves around
untouched. `ast.BadDecl` cannot occur because GenerateFiles panics on any
parse error before reaching the declaration loop (lib.go:150-153). -/
inductive Decl where
  | gen (tok : GoTok) (specs : List Spec) (payload : Nat)
  | func (recv : Option Nat) (payload : Nat)
deriving Repr, DecidableEq

/-- The checked cast `s.(*ast.ImportSpec)` of lib.go:163. In a parsed file an
IMPORT GenDecl holds only import specs, so the cast always succeeds there;
a non-import spec (on which Go would panic) yields none and is dropped. -/
def specAsImport : Spec → Option ImportSpec
  | Spec.imp is => some is
  | Spec.other _ => none

/-- The import specs a declaration contributes to `allImports`
(lib.go:161-164): its specs when it is an IMPORT GenDecl, nothing otherwise. -/
def declImports : Decl → List ImportSpec
  | Decl.gen GoTok.IMPORT specs _ => specs.filterMap specAsImport
  | Decl.gen _ _ _ => []
  | Decl.func _ _ => []

/-- A declaration the classifier routes to `allImports`: an IMPORT GenDecl. -/
def isImportDecl : Decl → Bool
  | Decl.gen GoTok.IMPORT _ _ => true
  | Decl.gen _ _ _ => false
  | Decl.func _ _ => false

/-- A declaration the classifier routes to `typeDecls` (lib.go:165-167):
any non-import GenDecl. -/
def isTypeBucketDecl : Decl → Bool
  | Decl.gen GoTok.IMPORT _ _ => false
  | Decl.gen _ _ _ => true
  | Decl.func _ _ => false

/-- A declaration the classifier routes to `funcDecls` (lib.go:169-170):
a FuncDecl with nil receiver. -/
def isPlainFuncDecl : Decl → Bool
  | Decl.func none _ => true
  | Decl.func (some _) _ => false
  | Decl.gen _ _ _ => false

/-- A declaration the classifier routes to `methodDecls` (lib.go:171-172):
a FuncDecl with a receiver. -/
def isMethodDecl : Decl → Bool
  | Decl.func (some _) _ => true
  | Decl.func none _ => false
  | Decl.gen _ _ _ => false

/-- The four accumulators of the classification loop, lib.go:155-156. -/
structure ClassifyRes where
  typeDecls : List Decl
  funcDecls : List Decl
  methodDecls : List Decl
  allImports : List ImportSpec
deriving Repr, DecidableEq

/-- One iteration of the declaration loop, lib.go:158-175. -/
def classifyStep (r : ClassifyRes) (d : Decl) : ClassifyRes :=
  match d with
  | Decl.gen tok specs p =>
    if tok = GoTok.IMPORT then
      { r with allImports := r.allImports ++ declImports (Decl.gen tok specs p) }
    else
      { r with typeDecls := r.typeDecls ++ [Decl.gen tok specs p] }
  | Decl.func recv p =>
    match recv with
    | none => { r with funcDecls := r.funcDecls ++ [Decl.func recv p] }
    | some rc => { r with methodDecls := r.methodDecls ++ [Decl.func (some rc) p] }

/-- The whole declaration loop of lib.go:158-175 over `node.Decls`. -/
def classify (ds : List Decl) : ClassifyRes :=
  ds.foldl classifyStep ⟨[], [], [], []⟩

/-- The parsed input compilation unit: its package clause identifier and its
top-level declarations. -/
structure SourceUnit where
  pkgName : String
  decls : List Decl
deriving Repr, DecidableEq

/-- The synthetic `ast.File` a bucket write constructs, lib.go:90-93: package
identifier `g.ProjectName`, an import GenDecl holding the full original import
list, then the bucket's declarations. -/
structure SynthFile where
  name : String
  imports : List ImportSpec
  decls : List Decl
deriving Repr, DecidableEq

/-- lib.go:85-93: the synthetic compilation unit built for one bucket. -/
def synthFileFor (g : Generator) (decls : List Decl) (availableImports : List ImportSpec) : SynthFile :=
  ⟨g.ProjectName, availableImports, decls⟩

/-- lib.go:80-107 `writeBucket`. `fmtNode` is the external serializer
(`format.Node`, lib.go:96) and `impProcess` the external unused-import pruner
(`imports.Process`, lib.go:101), each able to fail; a successful run yields the
file written by lib.go:106 as (path under the output dir, pruned content).
An empty bucket returns before either external call (lib.go:81-83). -/
def writeBucket (g : Generator) (fmtNode : SynthFile → Except String String)
    (impProcess : String → String → Except String String)
    (filename : String) (decls : List Decl) (availableImports : List ImportSpec) :
    Except String (Option (String × String)) :=
  if decls.length = 0 then Except.ok none
  else
    match fmtNode (synthFileFor g decls availableImports) with
    | Except.error e => Except.error e
    | Except.ok buf =>
      match impProcess filename buf with
      | Except.error e => Except.error e
      | Except.ok optimized =>
        Except.ok (some (filepathJoin g.OutputDir filename, optimized))

/-- The module paths of the vendor manifest: the second field of each line
starting with "# " (lib.go:129-130). -/
def manifestMods (lines : List String) : List String :=
  lines.filterMap (fun line =>
    if strHasPrefixGo line "# " then (goFields line).get? 1 else none)

/-- The scanner loop of lib.go:127-139 over the lines of vendor/modules.txt.
`move` is the `os.Rename` oracle (old path, new path ↦ success?); a failed
rename is skipped with `continue` (lib.go:135-137) and scanning goes on. The
only abnormal exit is Go's index-out-of-range panic on a "# " line with fewer
than two fields (lib.go:130), surfaced as an error. Each processed entry is
recorded as (module path, whether its rename succeeded). -/
def scanModulesTxt (g : Generator) (move : String → String → Bool) :
    List String → Except String (List (String × Bool))
  | [] => Except.ok []
  | line :: rest =>
    if strHasPrefixGo line "# " then
      match (goFields line).get? 1 with
      | none => Except.error "panic: index out of range"
      | some mod =>
        match scanModulesTxt g move rest with
        | Except.error e => Except.error e
        | Except.ok r =>
          Except.ok ((mod, move (filepathJoin "vendor" mod) (filepathJoin g.ThirdPartyDir mod)) :: r)
    else scanModulesTxt g move rest

/-- lib.go:112-141 `setupThirdParty`: a failed `go mod vendor` (lib.go:114-116)
or unreadable vendor/modules.txt (lib.go:120-123) is returned as a fatal
error; otherwise the manifest is scanned with per-entry rename results. The
deferred removal of the vendor directory carries no value and is omitted. -/
def setupThirdParty (g : Generator) (vendorCmd : Except String Unit)
    (modulesTxt : Except String (List String)) (move : String → String → Bool) :
    Except String (List (String × Bool)) :=
  match vendorCmd with
  | Except.error e => Except.error e
  | Except.ok _ =>
    match modulesTxt with
    | Except.error e => Except.error e
    | Except.ok lines => scanModulesTxt g move lines

/-- What one run of GenerateFiles (lib.go:146-200) did: the errors the three
ignored writeBucket calls returned, the bucket files actually written, and
which of the later phases ran. `panicked` is the `panic(err)` of lib.go:152
and lib.go:190. -/
structure PipelineResult where
  bucketErrors : List String
  writtenFiles : List (String × String)
  ranModInit : Bool
  vendorError : Option String
  movedEntries : List (String × Bool)
  ranShading : Bool
  ranTidy : Bool
  panicked : Bool
deriving Repr, DecidableEq

/-- The `.ok` payloads among the three bucket write results (the files written). -/
def okWrites (ws : List (Except String (Option (String × String)))) : List (String × String) :=
  ws.filterMap (fun w =>
    match w with
    | Except.ok (some pc) => some pc
    | Except.ok none => none
    | Except.error _ => none)

/-- The errors among the three bucket write results; lib.go:181-183 discards
them (the calls' return values are not inspected). -/
def errWrites (ws : List (Except String (Option (String × String)))) : List String :=
  ws.filterMap (fun w =>
    match w with
    | Except.ok _ => none
    | Except.error e => some e)

/-- lib.go:146-200 `GenerateFiles` as the sequence of phases it runs. `parsed`
is the result of parsing `inputFile` (lib.go:150); an error there panics at
once (lib.go:152). The three writeBucket results are computed with the names
of lib.go:180-183 and their errors discarded; `go mod init` (lib.go:186) runs
unconditionally after them; a setupThirdParty error panics (lib.go:189-191)
before the shading walk (lib.go:195) and `go mod tidy` (lib.go:198), whose own
errors are ignored. -/
def GenerateFiles (inputFile : String) (parsed : Except String SourceUnit)
    (fmtNode : SynthFile → Except String String)
    (impProcess : String → String → Except String String)
    (vendorCmd : Except String Unit) (modulesTxt : Except String (List String))
    (move : String → String → Bool) : PipelineResult :=
  match parsed with
  | Except.error _ =>
    { bucketErrors := [], writtenFiles := [], ranModInit := false,
      vendorError := none, movedEntries := [], ranShading := false,
      ranTidy := false, panicked := true }
  | Except.ok u =>
    let g := NewGenerator u.pkgName
    let r := classify u.decls
    let base := filepathBase inputFile
    let w1 := writeBucket g fmtNode impProcess (base ++ "_types.go") r.typeDecls r.allImports
    let w2 := writeBucket g fmtNode impProcess (base ++ "_funcs.go") r.funcDecls r.allImports
    let w3 := writeBucket g fmtNode impProcess (base ++ "_methods.go") r.methodDecls r.allImports
    match setupThirdParty g vendorCmd modulesTxt move with
    | Except.error e =>
      { bucketErrors := errWrites [w1, w2, w3], writtenFiles := okWrites [w1, w2, w3],
        ranModInit := true, vendorError := some e, movedEntries := [],
        ranShading := false, ranTidy := false, panicked := true }
    | Except.ok moved =>
      { bucketErrors := errWrites [w1, w2, w3], writtenFiles := okWrites [w1, w2, w3],
        ranModInit := true, vendorError := none, movedEntries := moved,
        ranShading := true, ranTidy := true, panicked := false }

/-- A path all of whose `/`-separated segments are ordinary names: no empty
segment (so no leading, trailing or doubled slash) and no `.` or `..`
segment. Canonical Go import paths have this shape. -/
def goodSeg (s : String) : Bool := s ≠ "" && s ≠ "." && s ≠ ".."

/-- See `goodSeg`: a clean relative slash-path. -/
def isCleanRelPath (p : String) : Bool := (splitOnSlash p).all goodSeg

/- ------------------------------------------------------------------ -/
/- Lemmas about the path-string model.                                 -/
/- ------------------------------------------------------------------ -/

theorem splitCharAux_ne_nil (c : Char) (l : List Char) : ∀ acc, splitCharAux c l acc ≠ [] := by
  induction l with
  | nil => intro acc; simp [splitCharAux]
  | cons x xs ih =>
    intro acc
    by_cases h : x = c
    · simp [splitCharAux, h]
    · simp only [splitCharAux, if_neg h]
      exact ih (x :: acc)

theorem splitStr_ne_nil (c : Char) (s : String) : splitStr c s ≠ [] := by
  simp only [splitStr, ne_eq, List.map_eq_nil_iff]
  exact splitCharAux_ne_nil c s.data []

theorem splitCharAux_append (c : Char) (l1 : List Char) : ∀ (acc l2 : List Char),
    splitCharAux c (l1 ++ c :: l2) acc = splitCharAux c l1 acc ++ splitCharAux c l2 [] := by
  induction l1 with
  | nil => intro acc l2; simp [splitCharAux]
  | cons x xs ih =>
    intro acc l2
    by_cases h : x = c
    · subst h; simp [splitCharAux, ih]
    · simp only [List.cons_append, splitCharAux, if_neg h]
      exact ih (x :: acc) l2

theorem joinSegs_append (L1 : List String) : ∀ L2 : List String, L1 ≠ [] → L2 ≠ [] →
    joinSegs (L1 ++ L2) = joinSegs L1 ++ "/" ++ joinSegs L2 := by
  induction L1 with
  | nil => intro L2 h1 h2; exact absurd rfl h1
  | cons s rest ih =>
    intro L2 h1 h2
    cases rest with
    | nil =>
      cases L2 with
      | nil => exact absurd rfl h2
      | cons t r2 => simp [joinSegs]
    | cons t r =>
      have hrec := ih L2 (by simp) h2
      simp only [List.cons_append] at hrec ⊢
      rw [joinSegs, joinSegs, hrec]
      simp [String.append_assoc]

theorem strMk_append (l1 l2 : List Char) : String.mk (l1 ++ l2) = String.mk l1 ++ String.mk l2 := rfl

theorem joinSegs_splitCharAux (l : List Char) : ∀ acc : List Char,
    joinSegs ((splitCharAux '/' l acc).map (fun x => String.mk x)) = String.mk (acc.reverse ++ l) := by
  induction l with
  | nil => intro acc; simp [splitCharAux, joinSegs]
  | cons x xs ih =>
    intro acc
    by_cases h : x = '/'
    · subst h
      have hne := splitCharAux_ne_nil '/' xs []
      cases hsp : splitCharAux '/' xs [] with
      | nil => exact absurd hsp hne
      | cons y ys =>
        have h2 := ih []
        rw [hsp] at h2
        simp only [List.reverse_nil, List.nil_append, List.map_cons] at h2
        simp only [splitCharAux, if_pos rfl, hsp, List.map_cons, joinSegs, h2]
        rw [show ("/" : String) = String.mk ['/'] from rfl, ← strMk_append, ← strMk_append]
        simp
    · simp only [splitCharAux, if_neg h]
      rw [ih (x :: acc)]
      simp

theorem joinSegs_splitOnSlash (s : String) : joinSegs (splitOnSlash s) = s := by
  have h := joinSegs_splitCharAux s.data []
  simpa [splitOnSlash, splitStr] using h

theorem data_slash : ("/" : String).data = ['/'] := rfl

theorem splitOnSlash_concat (a b : String) :
    splitOnSlash (a ++ "/" ++ b) = splitOnSlash a ++ splitOnSlash b := by
  unfold splitOnSlash splitStr
  have hd : (a ++ "/" ++ b).data = a.data ++ '/' :: b.data := by
    rw [String.data_append, String.data_append, data_slash]
    simp
  rw [hd, splitCharAux_append, List.map_append]

theorem cleanLoop_good (rooted : Bool) (segs : List String) :
    ∀ stack, (∀ s ∈ segs, goodSeg s = true) → cleanLoop rooted stack segs = stack.reverse ++ segs := by
  induction segs with
  | nil => intro stack h; simp [cleanLoop]
  | cons s rest ih =>
    intro stack h
    have hs : goodSeg s = true := h s (by simp)
    simp only [goodSeg, Bool.and_eq_true, decide_eq_true_eq] at hs
    have h1 : ¬(s = "" ∨ s = ".") := by
      rintro (h0 | h0) <;> simp [h0] at hs
    have h2 : ¬(s = "..") := by
      intro h0; simp [h0] at hs
    simp only [cleanLoop, if_neg h1, if_neg h2]
    rw [ih (s :: stack) (fun t ht => h t (List.mem_cons_of_mem s ht))]
    simp

theorem cleanRel_ne_empty {p : String} (h : isCleanRelPath p = true) : p ≠ "" := by
  intro he
  subst he
  revert h
  decide

theorem cleanRel_good {p : String} (h : isCleanRelPath p = true) :
    ∀ s ∈ splitOnSlash p, goodSeg s = true := by
  intro s hs
  exact List.all_eq_true.mp h s hs

theorem cleanRel_head {p : String} (h : isCleanRelPath p = true) :
    ∀ x ∈ p.data.head?, x ≠ '/' := by
  intro x hx hcontra
  subst hcontra
  cases hd : p.data with
  | nil => rw [hd] at hx; simp at hx
  | cons y ys =>
    rw [hd] at hx
    simp only [List.head?_cons, Option.mem_def, Option.some.injEq] at hx
    subst hx
    have hmem : ("" : String) ∈ splitOnSlash p := by
      unfold splitOnSlash splitStr
      rw [hd]
      simp [splitCharAux]
    have hbad := cleanRel_good h "" hmem
    simp [goodSeg] at hbad

theorem pathClean_concat (a b : String) (ha : isCleanRelPath a = true)
    (hb : isCleanRelPath b = true) :
    pathClean (a ++ "/" ++ b) = a ++ "/" ++ b := by
  have hdata : (a ++ "/" ++ b).data = a.data ++ '/' :: b.data := by
    rw [String.data_append, String.data_append, data_slash]
    simp
  have hane : a ≠ "" := cleanRel_ne_empty ha
  have hadata : a.data ≠ [] := by
    intro h0
    apply hane
    cases a with
    | mk l =>
      have hl : l = [] := h0
      subst hl
      rfl
  have hne : (a ++ "/" ++ b) ≠ "" := by
    intro h0
    have hdd : (a ++ "/" ++ b).data = [] := by rw [h0]
    rw [hdata] at hdd
    cases hcase : a.data with
    | nil => exact hadata hcase
    | cons x xs => rw [hcase] at hdd; simp at hdd
  have hroot : ¬((a ++ "/" ++ b).data.head? = some '/') := by
    intro h0
    rw [hdata] at h0
    rcases hcase : a.data with _ | ⟨x, xs⟩
    · exact hadata hcase
    · rw [hcase] at h0
      simp only [List.cons_append, List.head?_cons, Option.some.injEq] at h0
      have := cleanRel_head ha
      rw [hcase] at this
      exact this x (by simp) h0
  have hgood : ∀ s ∈ splitOnSlash (a ++ "/" ++ b), goodSeg s = true := by
    rw [splitOnSlash_concat]
    intro s hs
    rcases List.mem_append.mp hs with h0 | h0
    · exact cleanRel_good ha s h0
    · exact cleanRel_good hb s h0
  have hout : joinSegs (cleanLoop false [] (splitOnSlash (a ++ "/" ++ b))) = a ++ "/" ++ b := by
    rw [cleanLoop_good false _ [] hgood]
    simp only [List.reverse_nil, List.nil_append]
    rw [splitOnSlash_concat,
      joinSegs_append (splitOnSlash a) (splitOnSlash b) (splitStr_ne_nil '/' a) (splitStr_ne_nil '/' b),
      joinSegs_splitOnSlash, joinSegs_splitOnSlash]
  simp only [pathClean, if_neg hne, decide_eq_false hroot]
  simp only [Bool.false_eq_true, if_false, hout, if_neg hne]

theorem strHasPrefixGo_append (a b : String) : strHasPrefixGo (a ++ b) a = true := by
  simp [strHasPrefixGo, String.data_append, List.isPrefixOf_iff_prefix]

theorem map_eq_self_of_mem {α : Type} (f : α → α) (l : List α) (h : ∀ x ∈ l, f x = x) :
    l.map f = l := by
  induction l with
  | nil => rfl
  | cons x xs ih =>
    rw [List.map_cons, h x (List.mem_cons_self x xs),
      ih (fun y hy => h y (List.mem_cons_of_mem x hy))]

/- ------------------------------------------------------------------ -/
/- Lemmas about the Shader.                                            -/
/- ------------------------------------------------------------------ -/

theorem filepathJoin_clean (a b : String) (ha : isCleanRelPath a = true)
    (hb : isCleanRelPath b = true) : filepathJoin a b = a ++ "/" ++ b := by
  have h1 := cleanRel_ne_empty ha
  have h2 := cleanRel_ne_empty hb
  rw [filepathJoin, if_neg (by tauto), if_neg h1, if_neg h2, pathClean_concat a b ha hb]

theorem shadePath_of_needsShade (g : Generator) (p : String) (h : needsShade g p = true) :
    shadePath g p = filepathJoin g.ImportPrefix p := by
  rw [shadePath, if_pos h]
  rfl

theorem shadePath_of_not_needsShade (g : Generator) (p : String) (h : needsShade g p = false) :
    shadePath g p = p := by
  rw [shadePath, h]
  rfl

theorem needsShade_shadePath (g : Generator) (p : String)
    (hg : isCleanRelPath g.ImportPrefix = true)
    (hp : needsShade g p = true → isCleanRelPath p = true) :
    needsShade g (shadePath g p) = false := by
  cases hcase : needsShade g p with
  | false => rw [shadePath_of_not_needsShade g p hcase, hcase]
  | true =>
    have hcp := hp hcase
    rw [shadePath_of_needsShade g p hcase, filepathJoin_clean _ _ hg hcp]
    have hpre : strHasPrefixGo (g.ImportPrefix ++ "/" ++ p) g.ImportPrefix = true := by
      rw [String.append_assoc]
      exact strHasPrefixGo_append g.ImportPrefix ("/" ++ p)
    simp [needsShade, hpre]

theorem shadeEntry_skip (g : Generator) (e : FsEntry)
    (h : e.isDir = true ∨ strHasSuffixGo e.path ".go" = false) :
    shadeEntry g e = Except.ok e := by
  have hcond : (e.isDir || !(strHasSuffixGo e.path ".go")) = true := by
    rcases h with h0 | h0 <;> simp [h0]
  rw [shadeEntry, if_pos hcond]

/- ------------------------------------------------------------------ -/
/- Lemmas about the Classifier.                                        -/
/- ------------------------------------------------------------------ -/

theorem classify_foldl (ds : List Decl) : ∀ r : ClassifyRes,
    ds.foldl classifyStep r =
      ⟨r.typeDecls ++ ds.filter isTypeBucketDecl,
       r.funcDecls ++ ds.filter isPlainFuncDecl,
       r.methodDecls ++ ds.filter isMethodDecl,
       r.allImports ++ ds.flatMap declImports⟩ := by
  induction ds with
  | nil => intro r; simp
  | cons d rest ih =>
    intro r
    rw [List.foldl_cons, ih]
    cases d with
    | gen tok specs p =>
      cases tok <;>
        simp [classifyStep, isTypeBucketDecl, isPlainFuncDecl, isMethodDecl, declImports,
          List.filter_cons, List.append_assoc]
    | func recv p =>
      cases recv <;>
        simp [classifyStep, isTypeBucketDecl, isPlainFuncDecl, isMethodDecl, declImports,
          List.filter_cons, List.append_assoc]

theorem classify_eq (ds : List Decl) :
    classify ds =
      ⟨ds.filter isTypeBucketDecl, ds.filter isPlainFuncDecl,
       ds.filter isMethodDecl, ds.flatMap declImports⟩ := by
  rw [classify, classify_foldl]
  simp

theorem count_filter_true {d : Decl} {q : Decl → Bool} (ds : List Decl) (h : q d = true) :
    List.count d (ds.filter q) = List.count d ds := List.count_filter h

theorem count_filter_false {d : Decl} {q : Decl → Bool} (ds : List Decl) (h : q d = false) :
    List.count d (ds.filter q) = 0 := by
  rw [List.count_eq_zero]
  intro hmem
  have h2 := (List.mem_filter.mp hmem).2
  rw [h] at h2
  exact Bool.false_ne_true h2

theorem bucket_preds_disjoint (d : Decl) :
    (¬(isTypeBucketDecl d = true ∧ isPlainFuncDecl d = true)) ∧
    (¬(isTypeBucketDecl d = true ∧ isMethodDecl d = true)) ∧
    (¬(isPlainFuncDecl d = true ∧ isMethodDecl d = true)) := by
  rcases d with ⟨tok, specs, p⟩ | ⟨recv, p⟩
  · simp [isTypeBucketDecl, isPlainFuncDecl, isMethodDecl]
  · rcases recv with _ | rc <;> simp [isTypeBucketDecl, isPlainFuncDecl, isMethodDecl]

/- ------------------------------------------------------------------ -/
/- The claims.                                                         -/
/- ------------------------------------------------------------------ -/

/-- Claim C1, counterexample to the claim as stated: for the import path
"a.b/.." (parsed fine by Go, first segment "a.b" has a dot, not under the
prefix) the Shader rewrites to `filepath.Join(prefix, path)`, whose `Clean`
step collapses the `..`, so the result is NOT `<private-namespace>/P`. -/
theorem shading_rewrite_cex :
    isThirdParty "a.b/.." = true ∧
    strHasPrefixGo "a.b/.." (NewGenerator "mylib").ImportPrefix = false ∧
    shadePath (NewGenerator "mylib") "a.b/.." = "mylib_split/third_party" ∧
    shadePath (NewGenerator "mylib") "a.b/.." ≠
      (NewGenerator "mylib").ImportPrefix ++ "/" ++ "a.b/.." := by
  decide

/-- Claim C1 (amended): an import path is left unchanged when it is internal
(first segment without a dot) or already starts with the private namespace
prefix, and is otherwise rewritten to `filepath.Join(<private-namespace>, P)`
— which equals `<private-namespace>/P` whenever the prefix and P are clean
relative paths (no empty, `.` or `..` segments), as canonical Go import paths
are. No internal import is ever prefixed. -/
theorem shading_correctness_amended (g : Generator) (p : String) :
    (isThirdParty p = false → shadePath g p = p) ∧
    (strHasPrefixGo p g.ImportPrefix = true → shadePath g p = p) ∧
    (isThirdParty p = true → strHasPrefixGo p g.ImportPrefix = false →
      shadePath g p = filepathJoin g.ImportPrefix p ∧
      (isCleanRelPath g.ImportPrefix = true → isCleanRelPath p = true →
        shadePath g p = g.ImportPrefix ++ "/" ++ p)) := by
  refine ⟨?_, ?_, ?_⟩
  · intro h
    exact shadePath_of_not_needsShade g p (by simp [needsShade, h])
  · intro h
    exact shadePath_of_not_needsShade g p (by simp [needsShade, h])
  · intro h1 h2
    have hn : needsShade g p = true := by simp [needsShade, h1, h2]
    refine ⟨shadePath_of_needsShade g p hn, fun hg hp => ?_⟩
    rw [shadePath_of_needsShade g p hn, filepathJoin_clean _ _ hg hp]

/-- Claim C2, counterexample to the claim as stated: the file importing
"a.b/../../.." is rewritten by a first pass to the import "." (the `Clean`
inside `filepath.Join` collapses everything), and "." is itself third-party
by the dot test and not under the prefix, so the second pass rewrites again
and reports the file dirty. -/
theorem shading_idempotent_cex :
    (rewriteImportsInFile (NewGenerator "mylib")
        (rewriteImportsInFile (NewGenerator "mylib") (GoFile.mk ["a.b/../../.."] "body")).1).2 = true ∧
    (rewriteImportsInFile (NewGenerator "mylib")
        (rewriteImportsInFile (NewGenerator "mylib") (GoFile.mk ["a.b/../../.."] "body")).1).1 ≠
      (rewriteImportsInFile (NewGenerator "mylib") (GoFile.mk ["a.b/../../.."] "body")).1 := by
  decide

/-- Claim C2 (amended): a second application of rewriteImportsInFile changes
no import path and reports clean, provided the import prefix is a clean
relative path and every import path the first pass rewrites is one too (one
with `.`/`..`/empty segments can be collapsed by the Join's Clean into
a path that is shaded again); and a file whose rewrite reports no change is
returned by the walk exactly as it was. -/
theorem shading_idempotent_amended (g : Generator) (f : GoFile)
    (hg : isCleanRelPath g.ImportPrefix = true)
    (hp : ∀ p ∈ f.imports, needsShade g p = true → isCleanRelPath p = true) :
    rewriteImportsInFile g (rewriteImportsInFile g f).1 = ((rewriteImportsInFile g f).1, false) ∧
    (∀ (e : FsEntry) (f0 : GoFile), e.parsed = Except.ok f0 →
      (rewriteImportsInFile g f0).2 = false → shadeEntry g e = Except.ok e) := by
  constructor
  · have key : ∀ q ∈ f.imports.map (shadePath g), needsShade g q = false := by
      intro q hq
      obtain ⟨p, hpm, hrfl⟩ := List.mem_map.mp hq
      subst hrfl
      exact needsShade_shadePath g p hg (hp p hpm)
    have h1 : (f.imports.map (shadePath g)).map (shadePath g) = f.imports.map (shadePath g) :=
      map_eq_self_of_mem _ _ (fun q hq => shadePath_of_not_needsShade g q (key q hq))
    have h2 : (f.imports.map (shadePath g)).any (needsShade g) = false := by
      simp only [List.any_eq_false]
      intro q hq
      simp [key q hq]
    simp only [rewriteImportsInFile]
    rw [Prod.mk.injEq]
    exact ⟨by rw [h1], h2⟩
  · intro e f0 hparse hch
    by_cases hskip : (e.isDir || !(strHasSuffixGo e.path ".go")) = true
    · rw [shadeEntry, if_pos hskip]
    · rw [shadeEntry, if_neg hskip, hparse]
      simp [hch]

/-- Claim C2, witness for the amended theorem at a shaded two-import file. -/
theorem shading_idempotent_amended_wit :
    rewriteImportsInFile (NewGenerator "mylib")
        (rewriteImportsInFile (NewGenerator "mylib") (GoFile.mk ["example.com/pkg", "fmt"] "body")).1 =
      ((rewriteImportsInFile (NewGenerator "mylib") (GoFile.mk ["example.com/pkg", "fmt"] "body")).1, false) :=
  (shading_idempotent_amended (NewGenerator "mylib") (GoFile.mk ["example.com/pkg", "fmt"] "body")
    (by decide) (by decide)).1

/-- Claim C3 (confirmed): the classifier's three buckets are exactly the
order-preserving filters of the declaration list by the three routing
predicates, the extracted imports are the import declarations' specs in
order, each bucket keeps source order (it is a sublist of D), every
non-import declaration is counted exactly as often across the three buckets
as it occurs in D, and the buckets are pairwise disjoint. -/
theorem classifier_partition (ds : List Decl) :
    (classify ds).typeDecls = ds.filter isTypeBucketDecl ∧
    (classify ds).funcDecls = ds.filter isPlainFuncDecl ∧
    (classify ds).methodDecls = ds.filter isMethodDecl ∧
    (classify ds).allImports = ds.flatMap declImports ∧
    ((classify ds).typeDecls.Sublist ds ∧ (classify ds).funcDecls.Sublist ds ∧
      (classify ds).methodDecls.Sublist ds) ∧
    (∀ d : Decl, d ∈ ds → isImportDecl d = false →
      List.count d (classify ds).typeDecls + List.count d (classify ds).funcDecls +
        List.count d (classify ds).methodDecls = List.count d ds) ∧
    (∀ d : Decl, d ∈ (classify ds).typeDecls →
      ¬d ∈ (classify ds).funcDecls ∧ ¬d ∈ (classify ds).methodDecls) ∧
    (∀ d : Decl, d ∈ (classify ds).funcDecls → ¬d ∈ (classify ds).methodDecls) := by
  rw [classify_eq]
  refine ⟨rfl, rfl, rfl, rfl, ⟨List.filter_sublist ds, List.filter_sublist ds, List.filter_sublist ds⟩, ?_, ?_, ?_⟩
  · intro d hd hni
    rcases d with ⟨tok, specs, p⟩ | ⟨recv, p⟩
    · cases tok with
      | IMPORT => simp [isImportDecl] at hni
      | CONST =>
        rw [count_filter_true _ (by rfl), count_filter_false _ (by rfl),
          count_filter_false _ (by rfl)]
        simp
      | TYPE =>
        rw [count_filter_true _ (by rfl), count_filter_false _ (by rfl),
          count_filter_false _ (by rfl)]
        simp
      | VAR =>
        rw [count_filter_true _ (by rfl), count_filter_false _ (by rfl),
          count_filter_false _ (by rfl)]
        simp
    · rcases recv with _ | rc
      · rw [count_filter_false _ (by rfl), count_filter_true _ (by rfl),
          count_filter_false _ (by rfl)]
        simp
      · rw [count_filter_false _ (by rfl), count_filter_false _ (by rfl),
          count_filter_true _ (by rfl)]
        simp
  · intro d hd1
    have a1 := (List.mem_filter.mp hd1).2
    constructor
    · intro hd2
      exact (bucket_preds_disjoint d).1 ⟨a1, (List.mem_filter.mp hd2).2⟩
    · intro hd2
      exact (bucket_preds_disjoint d).2.1 ⟨a1, (List.mem_filter.mp hd2).2⟩
  · intro d hd1 hd2
    exact (bucket_preds_disjoint d).2.2 ⟨(List.mem_filter.mp hd1).2, (List.mem_filter.mp hd2).2⟩

/-- Claim C4 (confirmed): a callable declaration with a receiver lands in the
Methods bucket, a callable with no receiver in the Functions bucket, and any
other non-import declaration (a non-import GenDecl: type, const, var) in the
Types bucket. -/
theorem classification_rule (ds : List Decl) (d : Decl) (hd : d ∈ ds) :
    (isMethodDecl d = true → d ∈ (classify ds).methodDecls) ∧
    (isPlainFuncDecl d = true → d ∈ (classify ds).funcDecls) ∧
    (isTypeBucketDecl d = true → d ∈ (classify ds).typeDecls) := by
  rw [classify_eq]
  exact ⟨fun h => List.mem_filter.mpr ⟨hd, h⟩, fun h => List.mem_filter.mpr ⟨hd, h⟩,
    fun h => List.mem_filter.mpr ⟨hd, h⟩⟩

/-- Claim C4, witness: in a unit with one type, one function and one method,
the method declaration lands in the Methods bucket. -/
theorem classification_rule_wit :
    Decl.func (some 7) 3 ∈
      (classify [Decl.gen GoTok.TYPE [] 1, Decl.func none 2, Decl.func (some 7) 3]).methodDecls :=
  (classification_rule [Decl.gen GoTok.TYPE [] 1, Decl.func none 2, Decl.func (some 7) 3]
    (Decl.func (some 7) 3) (by decide)).1 (by decide)

/-- Claim C5, counterexample to the claim as stated: for a source unit whose
package clause is "mylib", the synthetic unit the Bucket Writer constructs
carries the package identifier "mylib_split" (the generator's project name,
lib.go:91 and lib.go:29), not the source unit's "mylib". -/
theorem bucket_pkg_identity_cex :
    (synthFileFor (NewGenerator (SourceUnit.mk "mylib" [Decl.gen GoTok.TYPE [] 0]).pkgName)
        [Decl.gen GoTok.TYPE [] 0] []).name ≠
      (SourceUnit.mk "mylib" [Decl.gen GoTok.TYPE [] 0]).pkgName := by
  decide

/-- Claim C5 (amended): every synthetic bucket unit's package identity is the
source unit's package name suffixed with "_split" — the generated module's
own name — independent of the bucket's declarations and imports. -/
theorem bucket_pkg_identity_amended (u : SourceUnit) (ds : List Decl) (imps : List ImportSpec) :
    (synthFileFor (NewGenerator u.pkgName) ds imps).name = u.pkgName ++ "_split" := rfl

/-- Claim C6, counterexample to the claim as stated: with a serializer that
fails on the (non-empty) Types bucket, the bucket write returns an error, yet
module initialization, the shading walk and the final tidy all still run —
GenerateFiles discards the three writeBucket return values (lib.go:181-183). -/
theorem bucket_failure_abort_cex :
    (GenerateFiles "mylib.go" (Except.ok (SourceUnit.mk "mylib" [Decl.gen GoTok.TYPE [] 0]))
        (fun _ => Except.error "format failed") (fun _ s => Except.ok s)
        (Except.ok ()) (Except.ok []) (fun _ _ => true)).bucketErrors = ["format failed"] ∧
    (GenerateFiles "mylib.go" (Except.ok (SourceUnit.mk "mylib" [Decl.gen GoTok.TYPE [] 0]))
        (fun _ => Except.error "format failed") (fun _ s => Except.ok s)
        (Except.ok ()) (Except.ok []) (fun _ _ => true)).writtenFiles = [] ∧
    (GenerateFiles "mylib.go" (Except.ok (SourceUnit.mk "mylib" [Decl.gen GoTok.TYPE [] 0]))
        (fun _ => Except.error "format failed") (fun _ s => Except.ok s)
        (Except.ok ()) (Except.ok []) (fun _ _ => true)).ranModInit = true ∧
    (GenerateFiles "mylib.go" (Except.ok (SourceUnit.mk "mylib" [Decl.gen GoTok.TYPE [] 0]))
        (fun _ => Except.error "format failed") (fun _ s => Except.ok s)
        (Except.ok ()) (Except.ok []) (fun _ _ => true)).ranShading = true := by
  decide

/-- Claim C6 (amended): a bucket serialization or pruning failure does not
abort the run — it is fatal only for that bucket's file. Whenever the input
parses, module initialization runs after the bucket writes regardless of
their outcome, and whenever vendoring also succeeds the shading and tidy
phases run too. -/
theorem bucket_failure_not_fatal (inputFile : String) (parsed : Except String SourceUnit)
    (fmtNode : SynthFile → Except String String)
    (impProcess : String → String → Except String String)
    (vendorCmd : Except String Unit) (modulesTxt : Except String (List String))
    (move : String → String → Bool) (u : SourceUnit) (hp : parsed = Except.ok u) :
    (GenerateFiles inputFile parsed fmtNode impProcess vendorCmd modulesTxt move).ranModInit = true ∧
    ((GenerateFiles inputFile parsed fmtNode impProcess vendorCmd modulesTxt move).vendorError = none →
      (GenerateFiles inputFile parsed fmtNode impProcess vendorCmd modulesTxt move).ranShading = true ∧
      (GenerateFiles inputFile parsed fmtNode impProcess vendorCmd modulesTxt move).ranTidy = true) := by
  subst hp
  simp only [GenerateFiles]
  split <;> simp

/-- Claim C6, witness for the amended theorem: the failing-serializer run
still reaches module initialization. -/
theorem bucket_failure_not_fatal_wit :
    (GenerateFiles "mylib.go" (Except.ok (SourceUnit.mk "mylib" [Decl.gen GoTok.TYPE [] 0]))
        (fun _ => Except.error "format failed") (fun _ s => Except.ok s)
        (Except.ok ()) (Except.ok []) (fun _ _ => true)).ranModInit = true :=
  (bucket_failure_not_fatal "mylib.go" (Except.ok (SourceUnit.mk "mylib" [Decl.gen GoTok.TYPE [] 0]))
    (fun _ => Except.error "format failed") (fun _ s => Except.ok s)
    (Except.ok ()) (Except.ok []) (fun _ _ => true)
    (SourceUnit.mk "mylib" [Decl.gen GoTok.TYPE [] 0]) rfl).1

theorem scanModulesTxt_ok (g : Generator) (move : String → String → Bool) (lines : List String)
    (hwf : ∀ line ∈ lines, strHasPrefixGo line "# " = true → (goFields line).get? 1 ≠ none) :
    scanModulesTxt g move lines =
      Except.ok ((manifestMods lines).map
        (fun m => (m, move (filepathJoin "vendor" m) (filepathJoin g.ThirdPartyDir m)))) := by
  induction lines with
  | nil => simp [scanModulesTxt, manifestMods]
  | cons line rest ih =>
    have hrest := ih (fun l hl => hwf l (List.mem_cons_of_mem line hl))
    by_cases hpre : strHasPrefixGo line "# " = true
    · have hget := hwf line (List.mem_cons_self line rest) hpre
      cases hg2 : (goFields line).get? 1 with
      | none => exact absurd hg2 hget
      | some mod =>
        rw [scanModulesTxt, if_pos hpre, hg2, hrest]
        have hg3 : (goFields line)[1]? = some mod := by
          rw [← List.get?_eq_getElem?]
          exact hg2
        simp [manifestMods, List.filterMap_cons, hpre, hg3]
    · rw [scanModulesTxt, if_neg hpre, hrest]
      simp [manifestMods, List.filterMap_cons, hpre]

/-- Claim C7 (confirmed): with vendoring and the manifest read both
succeeding, the relocation loop never fails: every well-formed manifest entry
is processed in order with its own rename outcome, a failed rename is merely
recorded as unmoved (the loop continues), and setupThirdParty returns
success whatever the rename oracle does. -/
theorem relocation_soft_failure (g : Generator) (lines : List String)
    (move : String → String → Bool)
    (hwf : ∀ line ∈ lines, strHasPrefixGo line "# " = true → (goFields line).get? 1 ≠ none) :
    setupThirdParty g (Except.ok ()) (Except.ok lines) move =
      Except.ok ((manifestMods lines).map
        (fun m => (m, move (filepathJoin "vendor" m) (filepathJoin g.ThirdPartyDir m)))) :=
  scanModulesTxt_ok g move lines hwf

/-- Claim C7, witness: a manifest with two module entries where the second
rename fails; the run still succeeds and records both entries in order. -/
theorem relocation_soft_failure_wit :
    setupThirdParty (NewGenerator "mylib") (Except.ok ())
        (Except.ok ["# example.com/a v1", "other line", "# example.com/a/sub v1"])
        (fun old _ => old == "vendor/example.com/a") =
      Except.ok [("example.com/a", true), ("example.com/a/sub", false)] :=
  (relocation_soft_failure (NewGenerator "mylib")
      ["# example.com/a v1", "other line", "# example.com/a/sub v1"]
      (fun old _ => old == "vendor/example.com/a") (by decide)).trans (by decide)

/-- Claim C8 (confirmed): a bucket with no declarations produces no file and
returns success, whatever the serializer and pruner oracles are — neither is
consulted, since the result does not depend on them. -/
theorem empty_bucket_no_file (g : Generator) (fmtNode : SynthFile → Except String String)
    (impProcess : String → String → Except String String) (filename : String)
    (availableImports : List ImportSpec) :
    writeBucket g fmtNode impProcess filename [] availableImports = Except.ok none := rfl

theorem writeBucket_ok (g : Generator) (fmtF : SynthFile → String)
    (pruneF : String → String → String) (filename : String) (decls : List Decl)
    (imps : List ImportSpec) :
    writeBucket g (fun f => Except.ok (fmtF f)) (fun n s => Except.ok (pruneF n s))
        filename decls imps =
      if decls = [] then Except.ok none
      else Except.ok (some (filepathJoin g.OutputDir filename,
        pruneF filename (fmtF (synthFileFor g decls imps)))) := by
  by_cases h : decls = []
  · subst h; simp [writeBucket]
  · rw [writeBucket, if_neg (by simpa [List.length_eq_zero] using h), if_neg h]

/-- Claim C9 (confirmed): on a successful run the bucket files are written
under the output root with the names `<basename>_types.<ext>`,
`<basename>_funcs.<ext>`, `<basename>_methods.<ext>`, where `<basename>` is
the input file's base name (its last path element, extension included, as
`filepath.Base` yields it) and `<ext>` is the Go source extension "go" —
one file per non-empty bucket and none for an empty bucket. -/
theorem bucket_output_paths (inputFile pkgName : String) (decls : List Decl)
    (fmtF : SynthFile → String) (pruneF : String → String → String)
    (vendorCmd : Except String Unit) (modulesTxt : Except String (List String))
    (move : String → String → Bool) :
    (GenerateFiles inputFile (Except.ok (SourceUnit.mk pkgName decls))
        (fun f => Except.ok (fmtF f)) (fun n s => Except.ok (pruneF n s))
        vendorCmd modulesTxt move).writtenFiles.map Prod.fst =
      (if (classify decls).typeDecls = [] then [] else
        [filepathJoin (NewGenerator pkgName).OutputDir (filepathBase inputFile ++ "_types." ++ "go")]) ++
      (if (classify decls).funcDecls = [] then [] else
        [filepathJoin (NewGenerator pkgName).OutputDir (filepathBase inputFile ++ "_funcs." ++ "go")]) ++
      (if (classify decls).methodDecls = [] then [] else
        [filepathJoin (NewGenerator pkgName).OutputDir (filepathBase inputFile ++ "_methods." ++ "go")]) := by
  have hts : filepathBase inputFile ++ "_types." ++ "go" = filepathBase inputFile ++ "_types.go" := by
    rw [String.append_assoc, (by decide : ("_types." ++ "go" : String) = "_types.go")]
  have hfs : filepathBase inputFile ++ "_funcs." ++ "go" = filepathBase inputFile ++ "_funcs.go" := by
    rw [String.append_assoc, (by decide : ("_funcs." ++ "go" : String) = "_funcs.go")]
  have hms : filepathBase inputFile ++ "_methods." ++ "go" = filepathBase inputFile ++ "_methods.go" := by
    rw [String.append_assoc, (by decide : ("_methods." ++ "go" : String) = "_methods.go")]
  rw [hts, hfs, hms]
  simp only [GenerateFiles]
  split <;>
  · simp only [okWrites, writeBucket_ok]
    by_cases h1 : (classify decls).typeDecls = [] <;>
      by_cases h2 : (classify decls).funcDecls = [] <;>
        by_cases h3 : (classify decls).methodDecls = [] <;>
          simp [h1, h2, h3]

theorem processDirectoryImports_skip_all (g : Generator) (es : List FsEntry) :
    (∀ e ∈ es, e.isDir = true ∨ strHasSuffixGo e.path ".go" = false) →
    processDirectoryImports g es = Except.ok es := by
  induction es with
  | nil => intro h; rfl
  | cons e rest ih =>
    intro h
    rw [processDirectoryImports, shadeEntry_skip g e (h e (List.mem_cons_self e rest)),
      ih (fun x hx => h x (List.mem_cons_of_mem e hx))]

theorem processDirectoryImports_skip_get (g : Generator) (es : List FsEntry) :
    ∀ out : List FsEntry, processDirectoryImports g es = Except.ok out →
      ∀ i : Nat, ∀ hi : i < es.length,
        ((es.get ⟨i, hi⟩).isDir = true ∨ strHasSuffixGo (es.get ⟨i, hi⟩).path ".go" = false) →
        out[i]? = some (es.get ⟨i, hi⟩) := by
  induction es with
  | nil =>
    intro out hout i hi
    exact absurd hi (by simp)
  | cons e rest ih =>
    intro out hout i hi hskip
    rw [processDirectoryImports] at hout
    cases hse : shadeEntry g e with
    | error err => rw [hse] at hout; simp at hout
    | ok e2 =>
      rw [hse] at hout
      cases hrest : processDirectoryImports g rest with
      | error err => rw [hrest] at hout; simp at hout
      | ok r2 =>
        rw [hrest] at hout
        simp only [Except.ok.injEq] at hout
        subst hout
        cases i with
        | zero =>
          have he2 : e2 = e := by
            have h0 := shadeEntry_skip g e (by simpa using hskip)
            rw [h0] at hse
            simpa using hse.symm
          simp [he2]
        | succ j =>
          have hj : j < rest.length := by simpa using hi
          have hr := ih r2 hrest j hj (by simpa using hskip)
          simpa using hr

/-- Claim C10 (confirmed): the shading walk's frame condition — an entry that
is a directory or whose path does not end in ".go" is handed back exactly as
it was (its recorded parse outcome is never consulted, so nothing is parsed),
and a tree consisting only of such entries passes through the walk unchanged,
whatever its entries' parse outcomes would have been. -/
theorem walk_frame (g : Generator) (es : List FsEntry) :
    ((∀ e ∈ es, e.isDir = true ∨ strHasSuffixGo e.path ".go" = false) →
      processDirectoryImports g es = Except.ok es) ∧
    (∀ out : List FsEntry, processDirectoryImports g es = Except.ok out →
      ∀ i : Nat, ∀ hi : i < es.length,
        ((es.get ⟨i, hi⟩).isDir = true ∨ strHasSuffixGo (es.get ⟨i, hi⟩).path ".go" = false) →
        out[i]? = some (es.get ⟨i, hi⟩)) :=
  ⟨processDirectoryImports_skip_all g es, processDirectoryImports_skip_get g es⟩

end Bradley
